import Mathlib

/-!
Verification of the coffee-sales ETL pipeline (ingestion, joined-view
aggregation, forecasting helpers) against its natural-language description.

The relevant parts of the Python scripts are embedded shallowly:
dataframes become lists of records, `drop_duplicates` becomes a
first-occurrence dedup, `groupby(...).agg(...)` becomes a map over the
deduplicated key list with per-fiber aggregation, SQL joins become list
binds with equality filters, and money amounts are rationals.
-/

set_option maxHeartbeats 1000000

namespace CoffeeSales

/-- One raw spreadsheet row (one purchase line) as read by
`01_Data_ingestion.py`.  Dates and times are abstracted as natural-number
codes (only equality and order on dates matter to the pipeline). -/
structure RawRow where
  transaction_id : ℕ
  transaction_date : ℕ
  transaction_time : ℕ
  transaction_qty : ℤ
  store_id : ℕ
  store_location : String
  product_id : ℕ
  product_category : String
  product_type : String
  product_detail : String
  unit_price : ℚ
deriving DecidableEq, Repr

/-- Row of the `stores` table: `df[['store_id', 'store_location']]`. -/
structure StoreRow where
  store_id : ℕ
  store_location : String
deriving DecidableEq, Repr

/-- Row of the `products` table produced by the `groupby("product_id")`
aggregation. -/
structure ProductRow where
  product_id : ℕ
  product_category : String
  product_type : String
  product_detail : String
  unit_price : ℚ
deriving DecidableEq, Repr

/-- Row of the `transactions` table: the six projected columns. -/
structure TransRow where
  transaction_id : ℕ
  transaction_date : ℕ
  transaction_time : ℕ
  transaction_qty : ℤ
  store_id : ℕ
  product_id : ℕ
deriving DecidableEq, Repr

/-! ### Pandas `drop_duplicates` : keep the first occurrence -/

/-- Helper for `dedupFirst`, carrying the set of already-seen elements. -/
def dedupFirstAux [DecidableEq α] (seen : List α) : List α → List α
  | [] => []
  | a :: l =>
    if a ∈ seen then dedupFirstAux seen l
    else a :: dedupFirstAux (a :: seen) l

/-- Pandas drop duplicates with its default keep-first behaviour. -/
def dedupFirst [DecidableEq α] (l : List α) : List α :=
  dedupFirstAux [] l

theorem mem_dedupFirstAux [DecidableEq α] (x : α) :
    ∀ (l seen : List α), x ∈ dedupFirstAux seen l ↔ x ∈ l ∧ x ∉ seen := by
  intro l
  induction l with
  | nil => intro seen; simp [dedupFirstAux]
  | cons a l ih =>
    intro seen
    by_cases ha : a ∈ seen
    · rw [dedupFirstAux, if_pos ha, ih]
      constructor
      · rintro ⟨hx, hs⟩; exact ⟨List.mem_cons_of_mem _ hx, hs⟩
      · rintro ⟨hx, hs⟩
        rcases List.mem_cons.1 hx with rfl | hx
        · exact absurd ha hs
        · exact ⟨hx, hs⟩
    · rw [dedupFirstAux, if_neg ha]
      simp only [List.mem_cons, ih]
      constructor
      · rintro (rfl | ⟨hx, hs⟩)
        · exact ⟨Or.inl rfl, ha⟩
        · exact ⟨Or.inr hx, fun hc => hs (Or.inr hc)⟩
      · rintro ⟨rfl | hx, hs⟩
        · exact Or.inl rfl
        · by_cases hxa : x = a
          · exact Or.inl hxa
          · exact Or.inr ⟨hx, fun hc => hc.elim hxa hs⟩

theorem mem_dedupFirst [DecidableEq α] (x : α) (l : List α) :
    x ∈ dedupFirst l ↔ x ∈ l := by
  rw [dedupFirst, mem_dedupFirstAux]
  simp

theorem nodup_dedupFirstAux [DecidableEq α] :
    ∀ (l seen : List α), (dedupFirstAux seen l).Nodup := by
  intro l
  induction l with
  | nil => intro seen; simp [dedupFirstAux]
  | cons a l ih =>
    intro seen
    by_cases ha : a ∈ seen
    · rw [dedupFirstAux, if_pos ha]; exact ih seen
    · rw [dedupFirstAux, if_neg ha]
      refine List.nodup_cons.2 ⟨fun hc => ?_, ih (a :: seen)⟩
      exact ((mem_dedupFirstAux a l (a :: seen)).1 hc).2 (List.mem_cons_self a seen)

theorem nodup_dedupFirst [DecidableEq α] (l : List α) : (dedupFirst l).Nodup :=
  nodup_dedupFirstAux l []

/-! ### `groupby` machinery -/

/-- The distinct group keys of a dataframe, first occurrence first. -/
def keysOf [DecidableEq κ] (k : α → κ) (l : List α) : List κ :=
  dedupFirst (l.map k)

/-- Pandas `groupby(k)[v].sum()`: one `(key, fiber sum)` pair per distinct key. -/
def sumBy [DecidableEq κ] (k : α → κ) (v : α → ℚ) (l : List α) : List (κ × ℚ) :=
  (keysOf k l).map (fun c => (c, ((l.filter (fun x => k x = c)).map v).sum))

/-- Pandas `groupby(k)[v].mean()`: one `(key, fiber mean)` pair per distinct key. -/
def meanBy [DecidableEq κ] (k : α → κ) (v : α → ℚ) (l : List α) : List (κ × ℚ) :=
  (keysOf k l).map (fun c =>
    (c, ((l.filter (fun x => k x = c)).map v).sum /
        (((l.filter (fun x => k x = c)).length : ℚ))))

theorem keysOf_nodup [DecidableEq κ] (k : α → κ) (l : List α) :
    (keysOf k l).Nodup := nodup_dedupFirst _

theorem mem_keysOf [DecidableEq κ] (k : α → κ) (l : List α) (c : κ) :
    c ∈ keysOf k l ↔ ∃ x ∈ l, k x = c := by
  rw [keysOf, mem_dedupFirst, List.mem_map]

/-- Splitting a sum along a decidable predicate. -/
theorem sum_map_filter_add (p : α → Prop) [DecidablePred p] (v : α → ℚ)
    (l : List α) :
    ((l.filter (fun x => p x)).map v).sum +
      ((l.filter (fun x => ¬ p x)).map v).sum = (l.map v).sum := by
  induction l with
  | nil => simp
  | cons a l ih =>
    simp only [decide_not] at ih
    by_cases h : p a
    · simp [List.filter_cons, h]
      linarith [ih]
    · simp [List.filter_cons, h]
      linarith [ih]

/-- Fiberwise decomposition: summing the per-key fiber sums over a
duplicate-free key list covering all rows recovers the total sum. -/
theorem sum_fiberwise [DecidableEq κ] (k : α → κ) (v : α → ℚ) :
    ∀ (keys : List κ) (l : List α), keys.Nodup → (∀ x ∈ l, k x ∈ keys) →
      (keys.map (fun c => ((l.filter (fun x => k x = c)).map v).sum)).sum =
        (l.map v).sum := by
  intro keys
  induction keys with
  | nil =>
    intro l _ hcov
    cases l with
    | nil => simp
    | cons a l => exact absurd (hcov a (List.mem_cons_self a l)) (by simp)
  | cons c cs ih =>
    intro l hnd hcov
    have hc : c ∉ cs := (List.nodup_cons.1 hnd).1
    have hnd' : cs.Nodup := (List.nodup_cons.1 hnd).2
    have hstep :
        (cs.map (fun c' => (((l.filter (fun x => k x ≠ c)).filter
            (fun x => k x = c')).map v).sum)).sum =
          ((l.filter (fun x => k x ≠ c)).map v).sum := by
      refine ih (l.filter (fun x => k x ≠ c)) hnd' ?_
      intro x hx
      have hx' := List.mem_filter.1 hx
      have hkx : k x ∈ c :: cs := hcov x hx'.1
      rcases List.mem_cons.1 hkx with h | h
      · exact absurd h (by simpa using hx'.2)
      · exact h
    have hfix : ∀ c' ∈ cs,
        (l.filter (fun x => k x ≠ c)).filter (fun x => k x = c') =
          l.filter (fun x => k x = c') := by
      intro c' hc'
      have hne : c' ≠ c := fun h => hc (h ▸ hc')
      rw [List.filter_filter]
      refine List.filter_congr ?_
      intro x _
      by_cases h : k x = c'
      · simp [h, hne]
      · simp [h]
    have hmap :
        (cs.map (fun c' => ((l.filter (fun x => k x = c')).map v).sum)).sum =
          ((l.filter (fun x => k x ≠ c)).map v).sum := by
      rw [← hstep]
      congr 1
      refine List.map_congr_left ?_
      intro c' hc'
      rw [hfix c' hc']
    calc ((c :: cs).map
            (fun c' => ((l.filter (fun x => k x = c')).map v).sum)).sum
        = ((l.filter (fun x => k x = c)).map v).sum +
            (cs.map (fun c' =>
              ((l.filter (fun x => k x = c')).map v).sum)).sum := by
          simp
      _ = ((l.filter (fun x => k x = c)).map v).sum +
            ((l.filter (fun x => k x ≠ c)).map v).sum := by rw [hmap]
      _ = (l.map v).sum := sum_map_filter_add (fun x => k x = c) v l

/-- The per-group sums produced by `groupby(k)[v].sum()` add up to the
ungrouped total of `v`. -/
theorem sumBy_snd_sum [DecidableEq κ] (k : α → κ) (v : α → ℚ) (l : List α) :
    ((sumBy k v l).map Prod.snd).sum = (l.map v).sum := by
  rw [sumBy, List.map_map]
  exact sum_fiberwise k v (keysOf k l) l (keysOf_nodup k l)
    (fun x hx => (mem_keysOf k l (k x)).2 ⟨x, hx, rfl⟩)

/-! ### Ingestion (`01_Data_ingestion.py`) -/

/-- Line 65: `stores = df[['store_id', 'store_location']].drop_duplicates()`. -/
def stores (df : List RawRow) : List StoreRow :=
  dedupFirst (df.map (fun r => ⟨r.store_id, r.store_location⟩))

/-- The aggregated product row for one group key `pid`: first-observed
category, type and detail, mean unit price over the group. -/
def productRowOf (df : List RawRow) (pid : ℕ) : ProductRow :=
  { product_id := pid
    product_category :=
      ((df.filter (fun r => r.product_id = pid)).map
        (fun r => r.product_category)).headD ""
    product_type :=
      ((df.filter (fun r => r.product_id = pid)).map
        (fun r => r.product_type)).headD ""
    product_detail :=
      ((df.filter (fun r => r.product_id = pid)).map
        (fun r => r.product_detail)).headD ""
    unit_price :=
      (((df.filter (fun r => r.product_id = pid)).map
        (fun r => r.unit_price)).sum) /
      (((df.filter (fun r => r.product_id = pid)).length : ℚ)) }

/-- Lines 69-78: `df.groupby("product_id").agg(first/first/first/mean)`,
one product row per distinct product id. -/
def products (df : List RawRow) : List ProductRow :=
  (keysOf (fun r => r.product_id) df).map (productRowOf df)

/-- Lines 83-84: projection of the six transaction columns. -/
def transactions (df : List RawRow) : List TransRow :=
  df.map (fun r =>
    ⟨r.transaction_id, r.transaction_date, r.transaction_time,
     r.transaction_qty, r.store_id, r.product_id⟩)

/-- Contents of the three database tables. -/
structure DB where
  stores : List StoreRow
  products : List ProductRow
  transactions : List TransRow
deriving DecidableEq, Repr

/-- Lines 90-110: the three `to_sql(..., if_exists='replace')` loads, each
preceded by one more `drop_duplicates()`.  Replace semantics: the result
does not depend on the previous table contents. -/
def loadedDB (df : List RawRow) : DB :=
  { stores := dedupFirst (stores df)
    products := dedupFirst (products df)
    transactions := dedupFirst (transactions df) }

/-- One ingestion run over a database in state `db`; with full-replace
loads the prior state is discarded. -/
def ingestRun (df : List RawRow) (_db : DB) : DB := loadedDB df

/-- Console-visible outcome of an ingestion run. -/
structure RunLog where
  errorLogged : Bool
  successBanner : Bool
  verificationRan : Bool
deriving DecidableEq, Repr

/-- Lines 90-153: the try/except around the three sequential loads followed
by the separately-guarded verification step.  `failAt = some i` means the
`i`-th `to_sql` call raises; the except branch prints the troubleshooting
checklist and the script falls through to verification either way. -/
def ingestionRun (df : List RawRow) (failAt : Option (Fin 3)) (db : DB) :
    DB × RunLog :=
  match failAt with
  | none => (loadedDB df, ⟨false, true, true⟩)
  | some i =>
    let db' : DB :=
      if i.val = 0 then db
      else if i.val = 1 then { db with stores := dedupFirst (stores df) }
      else { db with stores := dedupFirst (stores df),
                     products := dedupFirst (products df) }
    (db', ⟨true, false, true⟩)

/-! ### Joined view (query of `02_eda.py` lines 35-52) -/

/-- One row of the three-way join with the derived `total_amount`. -/
structure JoinedRow where
  transaction_id : ℕ
  transaction_date : ℕ
  transaction_time : ℕ
  transaction_qty : ℤ
  store_id : ℕ
  store_location : String
  product_id : ℕ
  product_category : String
  product_type : String
  product_detail : String
  unit_price : ℚ
  total_amount : ℚ
deriving DecidableEq, Repr

/-- The SQL query: `transactions JOIN stores ON store_id JOIN products ON
product_id`, with `total_amount = transaction_qty * unit_price`. -/
def joinedView (db : DB) : List JoinedRow :=
  db.transactions.flatMap (fun t =>
    (db.stores.filter (fun s => s.store_id = t.store_id)).flatMap (fun s =>
      (db.products.filter (fun p => p.product_id = t.product_id)).map (fun p =>
        { transaction_id := t.transaction_id
          transaction_date := t.transaction_date
          transaction_time := t.transaction_time
          transaction_qty := t.transaction_qty
          store_id := s.store_id
          store_location := s.store_location
          product_id := p.product_id
          product_category := p.product_category
          product_type := p.product_type
          product_detail := p.product_detail
          unit_price := p.unit_price
          total_amount := (t.transaction_qty : ℚ) * p.unit_price })))

/-! ### Exploration aggregates (`02_eda.py`) -/

/-- Line 103: `df['total_amount'].sum()`, the grand total revenue. -/
def total_revenue (df : List JoinedRow) : ℚ :=
  (df.map (fun r => r.total_amount)).sum

/-- Lines 112-118, revenue column: per-store location sum of
`total_amount`. -/
def store_stats (df : List JoinedRow) : List (String × ℚ) :=
  sumBy (fun r => r.store_location) (fun r => r.total_amount) df

/-- Lines 142-147, revenue column: per-category sum of `total_amount`. -/
def category_stats (df : List JoinedRow) : List (String × ℚ) :=
  sumBy (fun r => r.product_category) (fun r => r.total_amount) df

/-! ### Forecasting (`04_modelling.py`) -/

/-- Ordering of the daily rows by calendar date. -/
def dateLE (a b : ℕ × ℚ) : Prop := a.1 ≤ b.1

instance : DecidableRel dateLE :=
  fun a b => inferInstanceAs (Decidable (a.1 ≤ b.1))

instance : IsTotal (ℕ × ℚ) dateLE := ⟨fun a b => Nat.le_total a.1 b.1⟩

instance : IsTrans (ℕ × ℚ) dateLE := ⟨fun _ _ _ => Nat.le_trans⟩

/-- Lines 74-80: `df.groupby('date')['total_amount'].sum()` as the
`(date, revenue)` series; pandas emits the group keys in ascending order. -/
def daily_data (df : List JoinedRow) : List (ℕ × ℚ) :=
  List.insertionSort dateLE
    (sumBy (fun r => r.transaction_date) (fun r => r.total_amount) df)

/-- Line 141: `revenue.rolling(window=7, center=True).mean()`.  Position
`i` carries the mean of the window of rows `i-3 .. i+3`; where the window
is cut short by a series boundary the value is undefined (NaN). -/
def MA_7 (rev : List ℚ) : List (Option ℚ) :=
  (List.range rev.length).map (fun i =>
    if ((rev.take (i + 4)).drop (i - 3)).length = 7
    then some ((((rev.take (i + 4)).drop (i - 3)).sum) / 7)
    else none)

/-- Lines 176-178: `train_test_split(..., test_size=0.2, shuffle=False)`;
the test segment is the final `ceil(0.2 * N)` rows, the training segment
everything before it. -/
def train_test_split (l : List (ℕ × ℚ)) : List (ℕ × ℚ) × List (ℕ × ℚ) :=
  let nTest := (l.length + 4) / 5
  (l.take (l.length - nTest), l.drop (l.length - nTest))

/-- Line 279: `df.groupby(['store_location', 'date'])['total_amount'].sum()`. -/
def store_daily (df : List JoinedRow) : List ((String × ℕ) × ℚ) :=
  sumBy (fun r => (r.store_location, r.transaction_date))
    (fun r => r.total_amount) df

/-- Line 283: `store_daily.groupby('store')['revenue'].mean()`. -/
def store_avg (df : List JoinedRow) : List (String × ℚ) :=
  meanBy (fun e => e.1.1) (fun e => e.2) (store_daily df)

/-- Lines 289-291: `weekly_forecast = avg_rev * 7` for each store. -/
def storeWeeklyForecast (df : List JoinedRow) : List (String × ℚ) :=
  (store_avg df).map (fun e => (e.1, e.2 * 7))

/-- The claimed reading of the naive forecast: seven times the mean of the
per-store daily revenue taken only over the dates on which the store has at
least one transaction. -/
def specNaiveWeekly (df : List JoinedRow) (s : String) : ℚ :=
  7 * ((((df.filter (fun r => r.store_location = s)).map
      (fun r => r.total_amount)).sum) /
    (((dedupFirst ((df.filter (fun r => r.store_location = s)).map
      (fun r => r.transaction_date))).length : ℚ)))

/-! ### Concrete inputs used by the scenario claims -/

/-- The three-row raw input of the example scenario: store A / product X
qty 2 price 3.00, store A / product Y qty 1 price 5.00, store B /
product X qty 1 price 3.00. -/
def ex3 : List RawRow :=
  [ { transaction_id := 1, transaction_date := 1, transaction_time := 900,
      transaction_qty := 2, store_id := 1, store_location := "Store A",
      product_id := 1, product_category := "Coffee", product_type := "Brew",
      product_detail := "Product X", unit_price := 3 },
    { transaction_id := 2, transaction_date := 1, transaction_time := 905,
      transaction_qty := 1, store_id := 1, store_location := "Store A",
      product_id := 2, product_category := "Tea", product_type := "Leaf",
      product_detail := "Product Y", unit_price := 5 },
    { transaction_id := 3, transaction_date := 1, transaction_time := 910,
      transaction_qty := 1, store_id := 2, store_location := "Store B",
      product_id := 1, product_category := "Coffee", product_type := "Brew",
      product_detail := "Product X", unit_price := 3 } ]

/-- A raw input in which one store id is recorded under two different
location strings. -/
def exBad : List RawRow :=
  [ { transaction_id := 1, transaction_date := 1, transaction_time := 900,
      transaction_qty := 1, store_id := 1, store_location := "Downtown",
      product_id := 1, product_category := "Coffee", product_type := "Brew",
      product_detail := "Product X", unit_price := 3 },
    { transaction_id := 2, transaction_date := 1, transaction_time := 901,
      transaction_qty := 1, store_id := 1, store_location := "Uptown",
      product_id := 1, product_category := "Coffee", product_type := "Brew",
      product_detail := "Product X", unit_price := 3 } ]

/-- A two-day raw input used to exercise the train/test split. -/
def exDates : List RawRow :=
  [ { transaction_id := 1, transaction_date := 1, transaction_time := 900,
      transaction_qty := 2, store_id := 1, store_location := "Store A",
      product_id := 1, product_category := "Coffee", product_type := "Brew",
      product_detail := "Product X", unit_price := 3 },
    { transaction_id := 2, transaction_date := 2, transaction_time := 905,
      transaction_qty := 1, store_id := 1, store_location := "Store A",
      product_id := 2, product_category := "Tea", product_type := "Leaf",
      product_detail := "Product Y", unit_price := 5 } ]

/-- The daily revenue series of the second spec example:
seven days at 100 followed by one day at 200. -/
def rev8 : List ℚ := [100, 100, 100, 100, 100, 100, 100, 200]

/-! ### Claim theorems -/

/-- C1: on the 3-row example input (store A / product X qty 2 price 3.00,
store A / product Y qty 1 price 5.00, store B / product X qty 1 price
3.00), ingestion followed by the joined view yields grand total revenue
14.00, per-store revenue 11.00 for store A and 3.00 for store B, and a
stored average unit price of 3.00 for product X. -/
theorem C1_example_scenario :
    total_revenue (joinedView (loadedDB ex3)) = 14 ∧
    store_stats (joinedView (loadedDB ex3)) =
      [("Store A", 11), ("Store B", 3)] ∧
    ((products ex3).filter (fun p => p.product_id = 1)).map
      (fun p => p.unit_price) = [3] := by
  refine ⟨?_, ?_, ?_⟩
  · simp +decide [total_revenue, joinedView, loadedDB, stores, products,
      productRowOf, transactions, keysOf, dedupFirst, dedupFirstAux, ex3] <;>
      norm_num
  · simp +decide [store_stats, sumBy, joinedView, loadedDB, stores, products,
      productRowOf, transactions, keysOf, dedupFirst, dedupFirstAux, ex3] <;>
      norm_num
  · simp +decide [products, productRowOf, keysOf, dedupFirst,
      dedupFirstAux, ex3] <;> norm_num

/-- C2: for any joined view, the per-store revenues and the per-category
revenues each sum to the grand total revenue. -/
theorem C2_aggregate_consistency (df : List JoinedRow) :
    ((store_stats df).map Prod.snd).sum = total_revenue df ∧
    ((category_stats df).map Prod.snd).sum = total_revenue df :=
  ⟨sumBy_snd_sum _ _ df, sumBy_snd_sum _ _ df⟩

/-- C3: after ingestion, every store id of a transactions-table row occurs
in the stores table and every product id occurs in the products table. -/
theorem C3_referential_integrity (df : List RawRow) (t : TransRow)
    (ht : t ∈ (loadedDB df).transactions) :
    (∃ s ∈ (loadedDB df).stores, s.store_id = t.store_id) ∧
    (∃ p ∈ (loadedDB df).products, p.product_id = t.product_id) := by
  have ht' : t ∈ transactions df := (mem_dedupFirst t _).1 ht
  obtain ⟨r, hr, rfl⟩ := List.mem_map.1 ht'
  constructor
  · refine ⟨⟨r.store_id, r.store_location⟩, ?_, rfl⟩
    show _ ∈ dedupFirst (stores df)
    rw [mem_dedupFirst, stores, mem_dedupFirst]
    exact List.mem_map.2 ⟨r, hr, rfl⟩
  · have hk : r.product_id ∈ keysOf (fun r => r.product_id) df :=
      (mem_keysOf _ df _).2 ⟨r, hr, rfl⟩
    have hmem : productRowOf df r.product_id ∈ (loadedDB df).products := by
      show _ ∈ dedupFirst (products df)
      rw [mem_dedupFirst]
      exact List.mem_map_of_mem _ hk
    exact ⟨productRowOf df r.product_id, hmem, rfl⟩

/-- Witness for C3 at the example input. -/
theorem C3_referential_integrity_witness :
    (⟨1, 1, 900, 2, 1, 1⟩ : TransRow) ∈ (loadedDB ex3).transactions ∧
    ((∃ s ∈ (loadedDB ex3).stores, s.store_id = 1) ∧
     (∃ p ∈ (loadedDB ex3).products, p.product_id = 1)) :=
  ⟨by decide, C3_referential_integrity ex3 ⟨1, 1, 900, 2, 1, 1⟩ (by decide)⟩

/-- C4: ingestion is idempotent: a second run over the same source leaves
all three tables (in particular their row counts) exactly as after the
first run, because every load fully replaces the destination table. -/
theorem C4_ingestion_idempotent (df : List RawRow) (db : DB) :
    ingestRun df (ingestRun df db) = ingestRun df db ∧
    (ingestRun df (ingestRun df db)).stores.length =
      (ingestRun df db).stores.length ∧
    (ingestRun df (ingestRun df db)).products.length =
      (ingestRun df db).products.length ∧
    (ingestRun df (ingestRun df db)).transactions.length =
      (ingestRun df db).transactions.length :=
  ⟨rfl, rfl, rfl, rfl⟩

/-- C9: if the `i`-th of the three loads raises, the loads after it are
skipped (their tables keep the old state) while tables already loaded keep
their new state, the error is caught and the troubleshooting checklist is
logged instead of terminating, no success banner is printed, and the
verification step still runs. -/
theorem C9_failure_handling (df : List RawRow) (db : DB) (i : Fin 3) :
    (ingestionRun df (some i) db).2.errorLogged = true ∧
    (ingestionRun df (some i) db).2.successBanner = false ∧
    (ingestionRun df (some i) db).2.verificationRan = true ∧
    (ingestionRun df (some i) db).1.stores =
      (if i.val = 0 then db.stores else dedupFirst (stores df)) ∧
    (ingestionRun df (some i) db).1.products =
      (if i.val ≤ 1 then db.products else dedupFirst (products df)) ∧
    (ingestionRun df (some i) db).1.transactions = db.transactions ∧
    (ingestionRun df none db).2.verificationRan = true := by
  fin_cases i <;> simp [ingestionRun]

/-- In a duplicate-free list, filtering for one contained element yields
exactly that element. -/
theorem filter_eq_of_nodup [DecidableEq α] :
    ∀ (l : List α), l.Nodup → ∀ a ∈ l, l.filter (fun x => x = a) = [a] := by
  intro l
  induction l with
  | nil => intro _ a ha; exact absurd ha (by simp)
  | cons b t ih =>
    intro hnd a ha
    have hb : b ∉ t := (List.nodup_cons.1 hnd).1
    have hnd' : t.Nodup := (List.nodup_cons.1 hnd).2
    by_cases hba : b = a
    · subst hba
      rw [List.filter_cons, if_pos (by simp)]
      have : t.filter (fun x => x = b) = [] :=
        List.filter_eq_nil_iff.2 (fun x hx hxb => hb ((of_decide_eq_true hxb) ▸ hx))
      rw [this]
    · rw [List.filter_cons, if_neg (by simpa using hba)]
      rcases List.mem_cons.1 ha with rfl | hat
      · exact absurd rfl hba
      · exact ih hnd' a hat

/-- Length of an interval filter over `List.range`. -/
theorem length_filter_range_interval (a b : ℕ) :
    ∀ N, ((List.range N).filter (fun i => a ≤ i ∧ i < b)).length =
      min b N - a := by
  intro N
  induction N with
  | zero => simp
  | succ N ihN =>
    rw [List.range_succ, List.filter_append, List.length_append, ihN]
    by_cases h : a ≤ N ∧ N < b
    · simp only [List.filter_cons, List.filter_nil, h, decide_eq_true_eq]
      rw [if_pos (by simpa using h)]
      simp only [List.length_cons, List.length_nil]
      omega
    · simp only [List.filter_cons, List.filter_nil]
      rw [if_neg (by simpa using h)]
      simp only [List.length_nil]
      omega

/-- C5: the regression train/test split takes the chronologically first
80 percent of the daily series as training and the chronologically last
`ceil(0.2 * N)` rows as test, without shuffling, so no test date precedes
any training date. -/
theorem C5_chronological_split (df : List JoinedRow) :
    (train_test_split (daily_data df)).1 ++ (train_test_split (daily_data df)).2 =
      daily_data df ∧
    (train_test_split (daily_data df)).2.length =
      ((daily_data df).length + 4) / 5 ∧
    (train_test_split (daily_data df)).1.length =
      (daily_data df).length - ((daily_data df).length + 4) / 5 ∧
    ∀ a ∈ (train_test_split (daily_data df)).1,
      ∀ b ∈ (train_test_split (daily_data df)).2, a.1 ≤ b.1 := by
  refine ⟨List.take_append_drop _ _, ?_, ?_, ?_⟩
  · simp only [train_test_split, List.length_drop]
    omega
  · simp only [train_test_split, List.length_take]
    omega
  · intro a ha b hb
    have hs : List.Sorted dateLE (daily_data df) :=
      List.sorted_insertionSort dateLE _
    have hsplit :
        (train_test_split (daily_data df)).1 ++
          (train_test_split (daily_data df)).2 = daily_data df :=
      List.take_append_drop _ _
    have hp : List.Pairwise dateLE
        ((train_test_split (daily_data df)).1 ++
          (train_test_split (daily_data df)).2) := by
      rw [hsplit]; exact hs
    exact (List.pairwise_append.1 hp).2.2 a ha b hb

/-- Witness for C5 on the two-day input: the single training date does not
come after the single test date. -/
theorem C5_chronological_split_witness :
    ((1 : ℕ), (6 : ℚ)).1 ≤ ((2 : ℕ), (5 : ℚ)).1 :=
  (C5_chronological_split (joinedView (loadedDB exDates))).2.2.2
    (1, 6)
    (by simp +decide [train_test_split, daily_data, sumBy, keysOf, dedupFirst,
      dedupFirstAux, List.insertionSort, List.orderedInsert, joinedView,
      loadedDB, stores, products, productRowOf, transactions, exDates] <;>
      norm_num)
    (2, 5)
    (by simp +decide [train_test_split, daily_data, sumBy, keysOf, dedupFirst,
      dedupFirstAux, List.insertionSort, List.orderedInsert, joinedView,
      loadedDB, stores, products, productRowOf, transactions, exDates] <;>
      norm_num)

/-- C6: the centered 7-day rolling mean over an N-day series is undefined
at exactly the first 3 and last 3 positions (so `N - 6` positions carry a
value), and every defined position carries the mean of the 7 values
centered there. -/
theorem C6_rolling_mean_boundary (rev : List ℚ) :
    (MA_7 rev).length = rev.length ∧
    ((MA_7 rev).filter (fun o => o.isSome)).length = rev.length - 6 ∧
    ∀ i, i < rev.length →
      ((3 ≤ i ∧ i + 3 < rev.length →
        (MA_7 rev).getD i none =
          some ((((rev.drop (i - 3)).take 7).sum) / 7)) ∧
       (¬ (3 ≤ i ∧ i + 3 < rev.length) → (MA_7 rev).getD i none = none)) := by
  refine ⟨by simp [MA_7], ?_, ?_⟩
  · rw [MA_7, List.filter_map, List.length_map]
    have hcong :
        (List.range rev.length).filter
            ((fun o : Option ℚ => o.isSome) ∘ (fun i =>
              if ((rev.take (i + 4)).drop (i - 3)).length = 7
              then some ((((rev.take (i + 4)).drop (i - 3)).sum) / 7)
              else none)) =
          (List.range rev.length).filter
            (fun i => 3 ≤ i ∧ i < rev.length - 3) := by
      refine List.filter_congr ?_
      intro i hi
      simp only [List.mem_range] at hi
      show (if ((rev.take (i + 4)).drop (i - 3)).length = 7
            then some ((((rev.take (i + 4)).drop (i - 3)).sum) / 7)
            else none).isSome = decide (3 ≤ i ∧ i < rev.length - 3)
      by_cases hw : 3 ≤ i ∧ i < rev.length - 3
      · have h7 : ((rev.take (i + 4)).drop (i - 3)).length = 7 := by
          rw [List.length_drop, List.length_take, Nat.min_def]
          split <;> omega
        rw [if_pos h7]
        simp [hw]
      · have h7 : ¬ ((rev.take (i + 4)).drop (i - 3)).length = 7 := by
          rw [List.length_drop, List.length_take, Nat.min_def]
          split <;> omega
        rw [if_neg h7]
        simp [hw]
    rw [hcong, length_filter_range_interval]
    omega
  · intro i hi
    have hget : (MA_7 rev).getD i none =
        (if ((rev.take (i + 4)).drop (i - 3)).length = 7
         then some ((((rev.take (i + 4)).drop (i - 3)).sum) / 7)
         else none) := by
      simp [MA_7, List.getD_eq_getElem?_getD, List.getElem?_range hi]
    constructor
    · intro hin
      have h7 : ((rev.take (i + 4)).drop (i - 3)).length = 7 := by
        rw [List.length_drop, List.length_take, Nat.min_def]
        split <;> omega
      rw [hget, if_pos h7]
      have hidx : i - 3 + 7 = i + 4 := by omega
      rw [List.take_drop, hidx]
    · intro hout
      have h7 : ¬ ((rev.take (i + 4)).drop (i - 3)).length = 7 := by
        rw [List.length_drop, List.length_take, Nat.min_def]
        split <;> omega
      rw [hget, if_neg h7]

/-- Witness for C6 on the eight-day example series: position 3 is defined
and carries the centered mean. -/
theorem C6_rolling_mean_boundary_witness :
    (MA_7 rev8).getD 3 none =
      some ((((rev8.drop (3 - 3)).take 7).sum) / 7) :=
  ((C6_rolling_mean_boundary rev8).2.2 3 (by decide)).1 (by decide)

/-- C7: the products table has exactly one row per product id occurring in
the raw data; its category, type and detail come from the first raw row
observed for that id and its unit price is the arithmetic mean of the
unit prices over all raw rows sharing the id. -/
theorem C7_products_first_and_mean (df : List RawRow) (pid : ℕ) (r₀ : RawRow)
    (h : (df.filter (fun r => r.product_id = pid)).head? = some r₀) :
    (products df).filter (fun p => p.product_id = pid) =
      [{ product_id := pid
         product_category := r₀.product_category
         product_type := r₀.product_type
         product_detail := r₀.product_detail
         unit_price :=
           ((df.filter (fun r => r.product_id = pid)).map
             (fun r => r.unit_price)).sum /
           (((df.filter (fun r => r.product_id = pid)).length : ℚ)) }] := by
  have hr₀g : r₀ ∈ df.filter (fun r => r.product_id = pid) :=
    List.mem_of_mem_head? h
  have hr₀df : r₀ ∈ df := (List.mem_filter.1 hr₀g).1
  have hr₀id : r₀.product_id = pid := by
    have := (List.mem_filter.1 hr₀g).2
    exact of_decide_eq_true this
  have hk : pid ∈ keysOf (fun r => r.product_id) df :=
    (mem_keysOf _ df pid).2 ⟨r₀, hr₀df, hr₀id⟩
  have hfm : (products df).filter (fun p => p.product_id = pid) =
      ((keysOf (fun r => r.product_id) df).filter (fun c => c = pid)).map
        (productRowOf df) :=
    List.filter_map (productRowOf df) (keysOf (fun r => r.product_id) df)
  rw [hfm, filter_eq_of_nodup _ (keysOf_nodup _ df) pid hk]
  have hhead : ∀ (f : RawRow → String),
      ((df.filter (fun r => r.product_id = pid)).map f).headD "" = f r₀ := by
    intro f
    rw [List.headD_eq_head?_getD, List.head?_map, h]
    rfl
  unfold productRowOf
  simp only [List.map_cons, List.map_nil, List.cons.injEq, ProductRow.mk.injEq,
    and_true, true_and]
  exact ⟨hhead _, hhead _, hhead _⟩

/-- Witness for C7 at the example input and product id 1. -/
theorem C7_products_first_and_mean_witness :
    (products ex3).filter (fun p => p.product_id = 1) =
      [{ product_id := 1
         product_category := "Coffee"
         product_type := "Brew"
         product_detail := "Product X"
         unit_price :=
           ((ex3.filter (fun r => r.product_id = 1)).map
             (fun r => r.unit_price)).sum /
           (((ex3.filter (fun r => r.product_id = 1)).length : ℚ)) }] :=
  C7_products_first_and_mean ex3 1
    { transaction_id := 1, transaction_date := 1, transaction_time := 900,
      transaction_qty := 2, store_id := 1, store_location := "Store A",
      product_id := 1, product_category := "Coffee", product_type := "Brew",
      product_detail := "Product X", unit_price := 3 }
    (by decide)

/-- Counterexample to C8 as stated: when one store id appears under two
location strings, the stores table keeps both rows, so it does not have
exactly one row per distinct store id. -/
theorem C8_counterexample :
    (1 ∈ exBad.map (fun r => r.store_id)) ∧
    ¬ ((stores exBad).filter (fun s => s.store_id = 1)).length = 1 := by
  decide

/-- C8 amended: provided `store_location` is constant per `store_id` in
the raw data, the stores table contains exactly one row per distinct
store id appearing in the raw data. -/
theorem C8_one_row_per_store (df : List RawRow)
    (hfd : ∀ r₁ ∈ df, ∀ r₂ ∈ df, r₁.store_id = r₂.store_id →
      r₁.store_location = r₂.store_location)
    (sid : ℕ) (hs : sid ∈ df.map (fun r => r.store_id)) :
    ((stores df).filter (fun s => s.store_id = sid)).length = 1 := by
  obtain ⟨r, hr, hrid⟩ := List.mem_map.1 hs
  have hmem : (⟨sid, r.store_location⟩ : StoreRow) ∈ stores df := by
    rw [stores, mem_dedupFirst]
    exact List.mem_map.2 ⟨r, hr, by rw [hrid]⟩
  have huniq : ∀ x ∈ stores df, x.store_id = sid →
      x = (⟨sid, r.store_location⟩ : StoreRow) := by
    intro x hx hxid
    rw [stores, mem_dedupFirst] at hx
    obtain ⟨r', hr', rfl⟩ := List.mem_map.1 hx
    have hrr : r'.store_id = r.store_id := by
      rw [hrid]
      exact hxid
    have : r'.store_location = r.store_location := hfd r' hr' r hr hrr
    simp only [StoreRow.mk.injEq]
    exact ⟨hxid, this⟩
  have hcong : (stores df).filter (fun s => s.store_id = sid) =
      (stores df).filter (fun s => s = (⟨sid, r.store_location⟩ : StoreRow)) := by
    refine List.filter_congr ?_
    intro x hx
    rw [decide_eq_decide]
    constructor
    · intro hxid
      exact huniq x hx hxid
    · intro hxeq
      rw [hxeq]
  have hnd : (stores df).Nodup := nodup_dedupFirst _
  rw [hcong, filter_eq_of_nodup (stores df) hnd _ hmem]
  rfl

/-- Witness for the amended C8 at the example input. -/
theorem C8_one_row_per_store_witness :
    ((stores ex3).filter (fun s => s.store_id = 1)).length = 1 :=
  C8_one_row_per_store ex3 (by decide) 1 (by decide)

/-! ### Analysis of the naive per-store forecast (claim C10) -/

/-- The `(store, date)` group keys belonging to store `s`, unwrapped from
the pairs, form a duplicate-free date list. -/
theorem storeKeys_snd_nodup (df : List JoinedRow) (s : String) :
    ((((keysOf (fun r => (r.store_location, r.transaction_date)) df).filter
      (fun c => c.1 = s)).map Prod.snd)).Nodup := by
  have hKS : (((keysOf (fun r => (r.store_location, r.transaction_date)) df).filter
      (fun c => c.1 = s))).Nodup :=
    List.Nodup.filter _ (keysOf_nodup _ df)
  refine List.Nodup.map_on ?_ hKS
  intro x hx y hy hxy
  have hx1 : x.1 = s := of_decide_eq_true (List.mem_filter.1 hx).2
  have hy1 : y.1 = s := of_decide_eq_true (List.mem_filter.1 hy).2
  rw [Prod.ext_iff]
  exact ⟨hx1.trans hy1.symm, hxy⟩

/-- The dates of the `(store, date)` group keys belonging to store `s`
are exactly the dates of the rows of store `s`. -/
theorem mem_storeKeys_snd (df : List JoinedRow) (s : String) (d : ℕ) :
    d ∈ (((keysOf (fun r => (r.store_location, r.transaction_date)) df).filter
      (fun c => c.1 = s)).map Prod.snd) ↔
    d ∈ ((df.filter (fun r => r.store_location = s)).map
      (fun r => r.transaction_date)) := by
  constructor
  · intro hd
    obtain ⟨c, hcKS, rfl⟩ := List.mem_map.1 hd
    have hc1 : c.1 = s := of_decide_eq_true (List.mem_filter.1 hcKS).2
    have hcK := (List.mem_filter.1 hcKS).1
    obtain ⟨x, hx, hpk⟩ := (mem_keysOf _ df c).1 hcK
    have hxs : x.store_location = s := by
      rw [← hc1, ← hpk]
    have hxd : x.transaction_date = c.2 := by
      rw [← hpk]
    refine List.mem_map.2 ⟨x, ?_, hxd⟩
    exact List.mem_filter.2 ⟨hx, decide_eq_true hxs⟩
  · intro hd
    obtain ⟨x, hx, rfl⟩ := List.mem_map.1 hd
    have hxdf : x ∈ df := (List.mem_filter.1 hx).1
    have hxs : x.store_location = s := of_decide_eq_true (List.mem_filter.1 hx).2
    have hk : (x.store_location, x.transaction_date) ∈
        keysOf (fun r => (r.store_location, r.transaction_date)) df :=
      (mem_keysOf _ df _).2 ⟨x, hxdf, rfl⟩
    have hks : (x.store_location, x.transaction_date) ∈
        (keysOf (fun r => (r.store_location, r.transaction_date)) df).filter
          (fun c => c.1 = s) :=
      List.mem_filter.2 ⟨hk, decide_eq_true hxs⟩
    exact List.mem_map_of_mem Prod.snd hks

/-- The per-store slice of `store_daily` unwraps into one entry per key of
store `s`, each carrying its fiber sum. -/
theorem store_daily_filter (df : List JoinedRow) (s : String) :
    (store_daily df).filter (fun e => e.1.1 = s) =
      ((keysOf (fun r => (r.store_location, r.transaction_date)) df).filter
        (fun c => c.1 = s)).map
        (fun c => (c, ((df.filter (fun x =>
          (x.store_location, x.transaction_date) = c)).map
          (fun r => r.total_amount)).sum)) := by
  rw [store_daily, sumBy]
  exact List.filter_map _ _

/-- Summing the daily revenues of store `s` recovers the total revenue of
the rows of store `s`. -/
theorem store_daily_fiber_sum (df : List JoinedRow) (s : String) :
    ((((store_daily df).filter (fun e => e.1.1 = s)).map
      (fun e => e.2)).sum) =
      (((df.filter (fun r => r.store_location = s)).map
        (fun r => r.total_amount)).sum) := by
  rw [store_daily_filter, List.map_map]
  have h2 : ((keysOf (fun r => (r.store_location, r.transaction_date)) df).filter
      (fun c => c.1 = s)).map
        ((fun e : (String × ℕ) × ℚ => e.2) ∘
          (fun c => (c, ((df.filter (fun x =>
            (x.store_location, x.transaction_date) = c)).map
            (fun r => r.total_amount)).sum))) =
      ((keysOf (fun r => (r.store_location, r.transaction_date)) df).filter
        (fun c => c.1 = s)).map
        (fun c => (((df.filter (fun r => r.store_location = s)).filter
          (fun x => x.transaction_date = c.2)).map
          (fun r => r.total_amount)).sum) := by
    refine List.map_congr_left ?_
    intro c hc
    have hc1 : c.1 = s := of_decide_eq_true (List.mem_filter.1 hc).2
    show ((df.filter (fun x =>
        (x.store_location, x.transaction_date) = c)).map
        (fun r => r.total_amount)).sum = _
    rw [List.filter_filter]
    refine congrArg List.sum ?_
    refine congrArg (List.map (fun r : JoinedRow => r.total_amount)) ?_
    refine List.filter_congr ?_
    intro x _
    have hcpair : c = (s, c.2) := by
      rw [Prod.ext_iff]
      exact ⟨hc1, rfl⟩
    rw [hcpair]
    by_cases h1 : x.store_location = s <;>
      by_cases h2 : x.transaction_date = c.2 <;>
      simp [h1, h2, Prod.ext_iff]
  rw [h2]
  have h4 := sum_fiberwise (fun x : JoinedRow => x.transaction_date)
    (fun r => r.total_amount)
    (((keysOf (fun r => (r.store_location, r.transaction_date)) df).filter
      (fun c => c.1 = s)).map Prod.snd)
    (df.filter (fun r => r.store_location = s))
    (storeKeys_snd_nodup df s)
    (fun x hx => (mem_storeKeys_snd df s x.transaction_date).2
      (List.mem_map_of_mem _ hx))
  rw [List.map_map] at h4
  exact h4

/-- Store `s` has exactly as many `store_daily` entries as it has distinct
transaction dates. -/
theorem store_daily_fiber_len (df : List JoinedRow) (s : String) :
    ((store_daily df).filter (fun e => e.1.1 = s)).length =
      (dedupFirst ((df.filter (fun r => r.store_location = s)).map
        (fun r => r.transaction_date))).length := by
  rw [store_daily_filter, List.length_map]
  have hlm : ((keysOf (fun r => (r.store_location, r.transaction_date)) df).filter
      (fun c => c.1 = s)).length =
      (((keysOf (fun r => (r.store_location, r.transaction_date)) df).filter
        (fun c => c.1 = s)).map Prod.snd).length :=
    (List.length_map _ _).symm
  rw [hlm]
  have hperm : List.Perm
      (((keysOf (fun r => (r.store_location, r.transaction_date)) df).filter
        (fun c => c.1 = s)).map Prod.snd)
      (dedupFirst ((df.filter (fun r => r.store_location = s)).map
        (fun r => r.transaction_date))) := by
    refine (List.perm_ext_iff_of_nodup (storeKeys_snd_nodup df s)
      (nodup_dedupFirst _)).2 ?_
    intro d
    rw [mem_storeKeys_snd, mem_dedupFirst]
  exact hperm.length_eq

/-- C10: the naive per-store weekly forecast is exactly seven times the
mean of the store's daily revenue over the dates on which the store has at
least one transaction; calendar dates without transactions for the store
contribute nothing. -/
theorem C10_naive_store_forecast (df : List JoinedRow) (s : String)
    (hs : s ∈ df.map (fun r => r.store_location)) :
    (storeWeeklyForecast df).filter (fun e => e.1 = s) =
      [(s, specNaiveWeekly df s)] := by
  obtain ⟨r, hr, hrs⟩ := List.mem_map.1 hs
  have h1 : (storeWeeklyForecast df).filter (fun e => e.1 = s) =
      ((keysOf (fun e => e.1.1) (store_daily df)).filter
        (fun c => c = s)).map
        (fun c => (c,
          (((store_daily df).filter (fun e => e.1.1 = c)).map
            (fun e => e.2)).sum /
          ((((store_daily df).filter (fun e => e.1.1 = c)).length : ℚ)) * 7)) := by
    rw [storeWeeklyForecast, store_avg, meanBy, List.map_map]
    exact List.filter_map _ _
  have hk : (r.store_location, r.transaction_date) ∈
      keysOf (fun r => (r.store_location, r.transaction_date)) df :=
    (mem_keysOf _ df _).2 ⟨r, hr, rfl⟩
  have he : ((r.store_location, r.transaction_date),
      ((df.filter (fun x => (x.store_location, x.transaction_date) =
        (r.store_location, r.transaction_date))).map
        (fun x => x.total_amount)).sum) ∈ store_daily df := by
    rw [store_daily, sumBy]
    exact List.mem_map_of_mem _ hk
  have hsK : s ∈ keysOf (fun e => e.1.1) (store_daily df) :=
    (mem_keysOf _ _ s).2 ⟨_, he, hrs⟩
  rw [h1, filter_eq_of_nodup _ (keysOf_nodup _ _) s hsK]
  simp only [List.map_cons, List.map_nil]
  have hval :
      (((store_daily df).filter (fun e => e.1.1 = s)).map
        (fun e => e.2)).sum /
      ((((store_daily df).filter (fun e => e.1.1 = s)).length : ℚ)) * 7 =
      specNaiveWeekly df s := by
    rw [store_daily_fiber_sum, store_daily_fiber_len, specNaiveWeekly]
    ring
  rw [hval]

/-- Witness for C10 at the example input and store A. -/
theorem C10_naive_store_forecast_witness :
    (storeWeeklyForecast (joinedView (loadedDB ex3))).filter
      (fun e => e.1 = "Store A") =
      [("Store A", specNaiveWeekly (joinedView (loadedDB ex3)) "Store A")] :=
  C10_naive_store_forecast (joinedView (loadedDB ex3)) "Store A"
    (by simp +decide [joinedView, loadedDB, stores, products, productRowOf,
      transactions, keysOf, dedupFirst, dedupFirstAux, ex3])

end CoffeeSales
